import Mathlib

/-!
Verification of the fence scanner and image substituter of
`src/mdx_ditaa.py` (class `DitaaPreprocessor`).

Python strings are modelled as `List Char` (Python string operations are
code-point based; the UTF-8 byte encoding appears only where the source
calls `b(plaintext)` before checksumming).  Machine integers are `Nat`
with explicit `% 2 ^ 32` where the source wraps through `ctypes.c_uint32`.
Fallible operations return `Except Unit`: an `Except.error ()` marks a
Python exception propagating out of the modelled code.

The operating-system surface touched by `generate_diagram` (temporary
files, the external `ditaa` subprocess, `shutil.copy`, `os.path.relpath`
against the current working directory) is abstracted into an `OSEnv`
oracle: the oracle decides whether writing the renderer input file
succeeds, whether the subprocess exits with status 0, and what
`os.path.relpath` returns for a path.  Everything else is translated
directly from the source.
-/

namespace MdxDitaa

/-- A Python string: a line of text, as a list of code points. -/
abbrev Line := List Char

/-- Source line 92: `START_TAG = "```ditaa"`. -/
def START_TAG : Line := "```ditaa".data

/-- Source line 93: `END_TAG = "```"`. -/
def END_TAG : Line := "```".data

/-- The key of the inline annotation recognized at source line 125. -/
def pathKey : Line := "path=".data

/-- The character set of `prefix.strip(" \t>")` at source line 130. -/
def stripSet : Line := " \t>".data

/-- The four-space indent added at source line 115. -/
def indent4 : Line := "    ".data

/-- Python `s.startswith(p)` (restricted to list arguments). -/
def startsWith (s p : Line) : Bool := s.take p.length == p

/-- Python `s.endswith(p)`. -/
def endsWith (s p : Line) : Bool := s.drop (s.length - p.length) == p

/-- Python `s.find(sub)` for a non-empty `sub`: index of the first
occurrence, `none` standing for Python's `-1`. -/
def findSub : Line → Line → Option Nat
  | [], sub => if sub.isEmpty then some 0 else none
  | c :: rest, sub =>
      if startsWith (c :: rest) sub then some 0
      else (findSub rest sub).map (· + 1)

/-- Python `s.strip(cs)`: remove leading and trailing characters drawn
from the set `cs`. -/
def pyStrip (s : Line) (cs : Line) : Line :=
  ((s.dropWhile (fun c => cs.contains c)).reverse.dropWhile
    (fun c => cs.contains c)).reverse

/-- Python `"\n".join(ls)`. -/
def joinNL (ls : List Line) : Line := List.intercalate ['\n'] ls

/-- Python `os.path.basename`: everything after the last `/`. -/
def basename (p : Line) : Line :=
  (p.reverse.takeWhile (fun c => c != '/')).reverse

/-- Python `os.path.join` for two components (POSIX flavour): an
absolute second component wins; otherwise the parts are glued with a
single separator. -/
def osPathJoin (a b : Line) : Line :=
  if startsWith b ['/'] then b
  else if a.isEmpty then b
  else if endsWith a ['/'] then a ++ b
  else a ++ '/' :: b

/-- Python truthiness of an optional string (`None` and `""` are falsy). -/
def optTruthy : Option Line → Bool
  | none => false
  | some s => !s.isEmpty

/-- The embed construct built at source line 112:
`"![%s](%s)" % (p, p)`. -/
def embed (p : Line) : Line :=
  "![".data ++ p ++ "](".data ++ p ++ ")".data

/-! ### Checksum and image path (source lines 40-45 and 53-60) -/

/-- UTF-8 encoding of one code point, as in `bytes(string, "UTF-8")`
(source line 42). -/
def utf8EncodeChar (c : Char) : List Nat :=
  let v := c.toNat
  if v < 0x80 then [v]
  else if v < 0x800 then
    [0xC0 ||| (v >>> 6), 0x80 ||| (v &&& 0x3F)]
  else if v < 0x10000 then
    [0xE0 ||| (v >>> 12), 0x80 ||| ((v >>> 6) &&& 0x3F), 0x80 ||| (v &&& 0x3F)]
  else
    [0xF0 ||| (v >>> 18), 0x80 ||| ((v >>> 12) &&& 0x3F),
     0x80 ||| ((v >>> 6) &&& 0x3F), 0x80 ||| (v &&& 0x3F)]

/-- UTF-8 encoding of a string, the `b(plaintext)` of source line 57. -/
def utf8Encode (s : Line) : List Nat := (s.map utf8EncodeChar).flatten

/-- One step of the Adler-32 rolling checksum: `a` accumulates the byte
sum, `b` accumulates the running `a`, both modulo 65521. -/
def adlerStep (st : Nat × Nat) (d : Nat) : Nat × Nat :=
  ((st.1 + d) % 65521, (st.2 + st.1 + d) % 65521)

/-- `zlib.adler32(bytes)` (source line 57): fold the rolling checksum
over the bytes from the initial state `(1, 0)` and pack `b` into the
high 16 bits. -/
def zlibAdler32 (bytes : List Nat) : Nat :=
  let p := bytes.foldl adlerStep (1, 0)
  p.2 * 65536 + p.1

/-- `ctypes.c_uint32(n).value` (source line 57). -/
def ctypesU32 (n : Nat) : Nat := n % 2 ^ 32

/-- One lowercase hexadecimal digit. -/
def hexDigit (n : Nat) : Char :=
  if n < 10 then Char.ofNat (48 + n) else Char.ofNat (87 + n)

/-- Python `"%x" % n` for `n < 2 ^ 32` (the only values the source
formats: the checksum has passed through `ctypes.c_uint32`): lowercase
hexadecimal with leading zeros dropped, `0` printed as `"0"`. -/
def toHex32 (n : Nat) : Line :=
  let ds := [n / 16 ^ 7 % 16, n / 16 ^ 6 % 16, n / 16 ^ 5 % 16,
             n / 16 ^ 4 % 16, n / 16 ^ 3 % 16, n / 16 ^ 2 % 16,
             n / 16 % 16, n % 16]
  let trimmed := ds.dropWhile (fun d => d == 0)
  if trimmed.isEmpty then ['0'] else trimmed.map hexDigit

/-- Source line 58: `img_basename = "diagram-%x.png" % adler32`. -/
def imgBasename (plaintext : Line) : Line :=
  "diagram-".data ++ toHex32 (ctypesU32 (zlibAdler32 (utf8Encode plaintext)))
    ++ ".png".data

/-- Per-run configuration, the entries of `self.config` that the
preprocessor reads.  `extra_copy_path` is `Option` because its built-in
default is Python `None`.  The `ditaa_cmd` template only parameterizes
the external subprocess, which is abstracted into `OSEnv`. -/
structure Config where
  ditaa_image_dir : Line
  extra_copy_path : Option Line

/-- `DitaaPreprocessor.generate_image_path` (source lines 53-60). -/
def generate_image_path (cfg : Config) (plaintext : Line) : Line :=
  osPathJoin cfg.ditaa_image_dir (imgBasename plaintext)

/-! ### The rendering sub-step (source lines 62-89) -/

/-- The oracle for the operating-system surface of `generate_diagram`:
whether `src.write(plaintext)` succeeds (source line 71, an I/O write
may raise), whether `subprocess.check_call` exits with status 0 for
this block text (source line 76; a non-zero exit or an unstartable
process raises, which the `except Exception` catches), and the value of
`os.path.relpath(path, os.getcwd())` (source line 83). -/
structure OSEnv where
  writeOk : Line → Bool
  renderOk : Line → Bool
  relpath : Line → Line

/-- Outcome of one `generate_diagram` call.  `result` is
`Except.error ()` when an exception escapes the call, `Except.ok none`
for the caught-failure return of `None`, `Except.ok (some p)` for
success.  `srcLeft` / `outLeft` record whether the two temporary files
created by `tempfile.mkstemp` still exist when the call ends. -/
structure GDResult where
  result : Except Unit (Option Line)
  srcLeft : Bool
  outLeft : Bool

/-- `DitaaPreprocessor.generate_diagram` (source lines 62-89).  Both
temporary files are created first; the block text is then written to
the input file (line 70-71) BEFORE the `try:` of line 72, so an
exception raised by the write propagates without reaching the
`finally:` cleanup of lines 87-89.  Inside the `try`, a renderer
failure is caught by `except Exception` and turned into `None`, and the
`finally` deletes both temporary files on catch and on success alike.
The best-effort `shutil.copy` of lines 78-82 only touches the
filesystem and swallows its own errors, so it does not appear in the
result. -/
def generate_diagram (cfg : Config) (env : OSEnv) (plaintext : Line) :
    GDResult :=
  let img_dest := generate_image_path cfg plaintext
  if env.writeOk plaintext then
    if env.renderOk plaintext then
      { result := Except.ok (some (env.relpath img_dest)),
        srcLeft := false, outLeft := false }
    else
      { result := Except.ok none, srcLeft := false, outLeft := false }
  else
    { result := Except.error (), srcLeft := true, outLeft := true }

/-! ### The line scanner (source lines 91-135) -/

/-- The mutable locals of `DitaaPreprocessor.run` (source lines 94-98).
`ditaa_pre` is the source's `ditaa_prefix`. -/
structure ScanState where
  new_lines : List Line
  ditaa_pre : Line
  ditaa_lines : List Line
  in_diagram : Bool
  path_override : Option Line

/-- The initial locals of `run` (source lines 94-98). -/
def initState : ScanState := ⟨[], [], [], false, none⟩

/-- Source line 104: the accumulated body lines with the first
`len(ditaa_prefix)` characters removed. -/
def strippedLines (st : ScanState) : List Line :=
  st.ditaa_lines.map (fun dln => dln.drop st.ditaa_pre.length)

/-- Source line 105: the prefix-stripped body joined with newlines. -/
def blockCode (st : ScanState) : Line := joinNL (strippedLines st)

/-- The `in_diagram` branch of the scanner loop (source lines 100-120).
On the closing fence the body is stripped and rendered; on success the
embed line is built from the override directory or from
`extra_copy_path` — indexing `extra_copy_path` when it is `None` makes
`os.path.join` raise `TypeError` (source line 111), modelled as
`Except.error ()`.  `path_override` is reset only in the success branch
(source line 113). -/
def diagramStep (cfg : Config) (env : OSEnv) (st : ScanState) (ln : Line) :
    Except Unit ScanState :=
  if ln == st.ditaa_pre ++ END_TAG then
    let stripped := strippedLines st
    let code := blockCode st
    let gd := generate_diagram cfg env code
    match gd.result with
    | Except.error e => Except.error e
    | Except.ok filename =>
      if optTruthy filename then
        let f := filename.getD []
        if optTruthy st.path_override then
          let mk := osPathJoin (st.path_override.getD []) (basename f)
          Except.ok ⟨st.new_lines ++ [st.ditaa_pre ++ embed mk],
                     st.ditaa_pre, [], false, none⟩
        else
          match cfg.extra_copy_path with
          | none => Except.error ()
          | some ecp =>
            let mk := osPathJoin ecp (basename f)
            Except.ok ⟨st.new_lines ++ [st.ditaa_pre ++ embed mk],
                       st.ditaa_pre, [], false, none⟩
      else
        let md_code := stripped.map (fun dln => st.ditaa_pre ++ indent4 ++ dln)
        Except.ok ⟨st.new_lines ++ [[]] ++ md_code ++ [[]],
                   st.ditaa_pre, [], false, st.path_override⟩
  else
    Except.ok ⟨st.new_lines, st.ditaa_pre, st.ditaa_lines ++ [ln],
               st.in_diagram, st.path_override⟩

/-- The normal-state branch of the scanner loop (source lines 121-134).
`start` is `ln.find(START_TAG)`; when an annotation follows one
character after the marker, `path_override` is captured and the
annotation (with the single character before it) is cut from the end of
the line — note that this happens whether or not the line turns out to
be a valid opener. -/
def normalStep (st : ScanState) (ln : Line) : ScanState :=
  match findSub ln START_TAG with
  | none =>
      ⟨st.new_lines ++ [ln], st.ditaa_pre, st.ditaa_lines,
       st.in_diagram, st.path_override⟩
  | some start =>
      let pre := ln.take start
      let post := ln.drop (start + START_TAG.length + 1)
      let hasA := !post.isEmpty && startsWith post pathKey
      let po := if hasA then some (post.drop 5) else st.path_override
      let ln1 := if hasA then ln.take (ln.length - post.length - 1) else ln
      if endsWith ln1 START_TAG && (pyStrip pre stripSet).isEmpty then
        ⟨st.new_lines, pre, st.ditaa_lines, true, po⟩
      else
        ⟨st.new_lines ++ [ln1], st.ditaa_pre, st.ditaa_lines,
         st.in_diagram, po⟩

/-- One iteration of the `for ln in lines` loop of `run`. -/
def processLine (cfg : Config) (env : OSEnv) (st : ScanState) (ln : Line) :
    Except Unit ScanState :=
  if st.in_diagram then diagramStep cfg env st ln
  else Except.ok (normalStep st ln)

/-- The scanner loop over the remaining input lines. -/
def runLoop (cfg : Config) (env : OSEnv) :
    ScanState → List Line → Except Unit ScanState
  | st, [] => Except.ok st
  | st, ln :: rest =>
    match processLine cfg env st ln with
    | Except.error e => Except.error e
    | Except.ok st2 => runLoop cfg env st2 rest

/-- `DitaaPreprocessor.run` (source lines 91-135): scan all lines from
the initial state and return `new_lines`. -/
def run (cfg : Config) (env : OSEnv) (lines : List Line) :
    Except Unit (List Line) :=
  match runLoop cfg env initState lines with
  | Except.error e => Except.error e
  | Except.ok st => Except.ok st.new_lines

/-! ### Spec-side definitions

These definitions follow the wording of the specification, to be
compared with the behaviour of the code above. -/

/-- The position of the first occurrence of the opening marker in a
line (meaningful when the marker occurs). -/
def markerPos (ln : Line) : Nat := (findSub ln START_TAG).getD 0

/-- Whether the scanner's normal state sees an inline `path=` override
after the marker: one character past the first marker occurrence, the
rest of the line starts with `path=` (source line 125). -/
def hasAnnot (ln : Line) : Bool :=
  match findSub ln START_TAG with
  | none => false
  | some s =>
      let post := ln.drop (s + START_TAG.length + 1)
      !post.isEmpty && startsWith post pathKey

/-- The line as the scanner emits it from the normal state: unchanged,
except that a recognized `path=` override (and the single character
before it) is cut from the end (source line 127). -/
def annotStripped (ln : Line) : Line :=
  match findSub ln START_TAG with
  | none => ln
  | some s =>
      let post := ln.drop (s + START_TAG.length + 1)
      if !post.isEmpty && startsWith post pathKey then
        ln.take (ln.length - post.length - 1)
      else ln

/-- The specification's valid-opener condition, following its words:
the line contains the marker; the text before the (first occurrence of
the) marker becomes empty when spaces, tabs and `>` are stripped; and
the marker — after removing a trailing `path=` annotation (one
separator character followed by `path=<value>` reaching the end of the
line), if present — is the final content of the line. -/
def specValidOpener (ln : Line) : Prop :=
  ∃ s, findSub ln START_TAG = some s ∧
    pyStrip (ln.take s) stripSet = [] ∧
    ((∃ a, ln = a ++ START_TAG) ∨
      ∃ sep v, ln = ln.take s ++ START_TAG ++ sep :: (pathKey ++ v))

/-- The specification's description of the checksum: Adler-32 in closed
form.  The low word is one plus the byte sum modulo 65521. -/
def specAdlerA (bytes : List Nat) : Nat := (1 + bytes.sum) % 65521

/-- Byte sum weighted by distance from the end (the first byte of `n`
bytes counts `n` times), the closed form of Adler-32's second word. -/
def weightedSum : List Nat → Nat
  | [] => 0
  | d :: rest => (rest.length + 1) * d + weightedSum rest

/-- The high word of Adler-32 in closed form: the byte count plus the
weighted byte sum, modulo 65521. -/
def specAdlerB (bytes : List Nat) : Nat :=
  (bytes.length + weightedSum bytes) % 65521

/-- The Adler-32 checksum of a byte string, in closed form. -/
def specAdler (bytes : List Nat) : Nat :=
  specAdlerB bytes * 65536 + specAdlerA bytes

/-! ### Helper lemmas about the string primitives -/

theorem startsWith_iff {s p : Line} :
    startsWith s p = true ↔ ∃ b, s = p ++ b := by
  constructor
  · intro h
    refine ⟨s.drop p.length, ?_⟩
    have ht : s.take p.length = p := by simpa [startsWith] using h
    conv_lhs => rw [← List.take_append_drop p.length s]
    rw [ht]
  · rintro ⟨b, rfl⟩
    simp [startsWith, List.take_left]

theorem endsWith_iff {s p : Line} :
    endsWith s p = true ↔ ∃ a, s = a ++ p := by
  constructor
  · intro h
    refine ⟨s.take (s.length - p.length), ?_⟩
    have hd : s.drop (s.length - p.length) = p := by simpa [endsWith] using h
    conv_lhs => rw [← List.take_append_drop (s.length - p.length) s]
    rw [hd]
  · rintro ⟨a, rfl⟩
    have hlen : (a ++ p).length - p.length = a.length := by
      simp [List.length_append]
    simp [endsWith, hlen, List.drop_left]

theorem endsWith_append (a p : Line) : endsWith (a ++ p) p = true :=
  endsWith_iff.2 ⟨a, rfl⟩

theorem findSub_decomp {s sub : Line} {i : Nat}
    (h : findSub s sub = some i) : ∃ b, s.drop i = sub ++ b := by
  induction s generalizing i with
  | nil =>
      by_cases hsub : sub.isEmpty
      · have : sub = [] := by simpa [List.isEmpty_iff] using hsub
        subst this
        simp [findSub] at h
        subst h
        exact ⟨[], rfl⟩
      · simp [findSub, hsub] at h
  | cons c rest ih =>
      by_cases hsw : startsWith (c :: rest) sub = true
      · have : i = 0 := by simp [findSub, hsw] at h; omega
        subst this
        obtain ⟨b, hb⟩ := startsWith_iff.1 hsw
        exact ⟨b, by simpa using hb⟩
      · simp [findSub, hsw] at h
        obtain ⟨j, hj, hij⟩ := h
        subst hij
        obtain ⟨b, hb⟩ := ih hj
        exact ⟨b, by simpa using hb⟩

theorem drop_append_plus (a c : Line) (k : Nat) :
    (a ++ c).drop (a.length + k) = c.drop k := by
  rw [← List.drop_drop, List.drop_left]

theorem takeWhile_all {p : Char → Bool} :
    ∀ l : Line, (∀ c ∈ l, p c = true) → l.takeWhile p = l := by
  intro l h
  induction l with
  | nil => rfl
  | cons c rest ih =>
      have hc : p c = true := h c (List.mem_cons_self c rest)
      rw [List.takeWhile_cons_of_pos hc,
        ih fun d hd => h d (List.mem_cons_of_mem c hd)]

theorem basename_slashless {b : Line} (h : ∀ c ∈ b, c ≠ '/') :
    basename b = b := by
  unfold basename
  rw [takeWhile_all]
  · exact List.reverse_reverse b
  · intro c hc
    simp only [bne_iff_ne, ne_eq]
    exact h c (List.mem_reverse.1 hc)

theorem basename_append {a b : Line} (h : ∀ c ∈ b, c ≠ '/') :
    basename (a ++ '/' :: b) = b := by
  unfold basename
  have hrev : (a ++ '/' :: b).reverse = b.reverse ++ '/' :: a.reverse := by
    simp
  rw [hrev, List.takeWhile_append_of_pos, List.takeWhile_cons_of_neg]
  · simp
  · simp
  · intro c hc
    simp only [bne_iff_ne, ne_eq]
    exact h c (List.mem_reverse.1 hc)

theorem basename_join {a b : Line} (h : ∀ c ∈ b, c ≠ '/') :
    basename (osPathJoin a b) = b := by
  unfold osPathJoin
  by_cases h1 : startsWith b ['/'] = true
  · obtain ⟨t, ht⟩ := startsWith_iff.1 h1
    exact absurd rfl (h '/' (ht ▸ List.mem_cons_self '/' t))
  · rw [if_neg h1]
    by_cases h2 : a.isEmpty = true
    · rw [if_pos h2]
      exact basename_slashless h
    · rw [if_neg h2]
      by_cases h3 : endsWith a ['/'] = true
      · rw [if_pos h3]
        obtain ⟨a0, ha0⟩ := endsWith_iff.1 h3
        subst ha0
        rw [List.append_assoc]
        exact basename_append h
      · rw [if_neg h3]
        exact basename_append h

theorem osPathJoin_ne_nil {a b : Line} (hne : b ≠ []) :
    osPathJoin a b ≠ [] := by
  unfold osPathJoin
  split
  · exact hne
  · split
    · exact hne
    · split <;> simp [hne]

/-! ### Hexadecimal digits avoid the path separator -/

theorem hexDigit_ne_slash {d : Nat} (h : d < 16) : hexDigit d ≠ '/' := by
  interval_cases d <;> decide

theorem toHex32_no_slash (n : Nat) : ∀ c ∈ toHex32 n, c ≠ '/' := by
  intro c hc
  simp only [toHex32] at hc
  split at hc
  · simp at hc
    subst hc
    decide
  · obtain ⟨d, hd, hdc⟩ := List.mem_map.1 hc
    have hds := (List.dropWhile_sublist _).mem hd
    have hd16 : d < 16 := by
      simp only [List.mem_cons, List.not_mem_nil, or_false] at hds
      rcases hds with h | h | h | h | h | h | h | h <;>
        exact h ▸ Nat.mod_lt _ (by norm_num)
    exact hdc ▸ hexDigit_ne_slash hd16

theorem diagramStr_no_slash : ∀ c ∈ "diagram-".data, c ≠ '/' := by decide

theorem pngStr_no_slash : ∀ c ∈ ".png".data, c ≠ '/' := by decide

theorem imgBasename_no_slash (t : Line) : ∀ c ∈ imgBasename t, c ≠ '/' := by
  intro c hc
  unfold imgBasename at hc
  rcases List.mem_append.1 hc with hc | hc
  · rcases List.mem_append.1 hc with hc | hc
    · exact diagramStr_no_slash c hc
    · exact toHex32_no_slash _ c hc
  · exact pngStr_no_slash c hc

theorem imgBasename_ne_nil (t : Line) : imgBasename t ≠ [] := by
  unfold imgBasename
  have : "diagram-".data ≠ [] := by decide
  simp [this]

/-- The final component of the image destination path is the
checksum-derived basename. -/
theorem basename_generate_image_path (cfg : Config) (t : Line) :
    basename (generate_image_path cfg t) = imgBasename t :=
  basename_join (imgBasename_no_slash t)

theorem generate_image_path_ne_nil (cfg : Config) (t : Line) :
    generate_image_path cfg t ≠ [] :=
  osPathJoin_ne_nil (imgBasename_ne_nil t)

/-! ### The Adler-32 fold agrees with its closed form -/

theorem adler_foldl (l : List Nat) :
    ∀ a b : Nat, l.foldl adlerStep (a % 65521, b % 65521) =
      ((a + l.sum) % 65521,
       (b + l.length * a + weightedSum l) % 65521) := by
  induction l with
  | nil => intro a b; simp [weightedSum]
  | cons d t ih =>
      intro a b
      have h1 : (a % 65521 + d) % 65521 = (a + d) % 65521 := by omega
      have h2 : (b % 65521 + a % 65521 + d) % 65521 = (b + a + d) % 65521 := by
        omega
      have step : adlerStep (a % 65521, b % 65521) d =
          ((a + d) % 65521, (b + a + d) % 65521) := by
        simp [adlerStep, h1, h2]
      calc (d :: t).foldl adlerStep (a % 65521, b % 65521)
          = t.foldl adlerStep ((a + d) % 65521, (b + a + d) % 65521) := by
            rw [List.foldl_cons, step]
        _ = ((a + d + t.sum) % 65521,
             (b + a + d + t.length * (a + d) + weightedSum t) % 65521) :=
            ih (a + d) (b + a + d)
        _ = ((a + (d :: t).sum) % 65521,
             (b + (d :: t).length * a + weightedSum (d :: t)) % 65521) := by
            have e1 : a + d + t.sum = a + (d :: t).sum := by
              simp [List.sum_cons]; ring
            have e2 : b + a + d + t.length * (a + d) + weightedSum t =
                b + (d :: t).length * a + weightedSum (d :: t) := by
              simp [List.length_cons, weightedSum]; ring
            rw [e1, e2]

theorem zlibAdler32_eq_spec (bytes : List Nat) :
    zlibAdler32 bytes = specAdler bytes := by
  unfold zlibAdler32 specAdler specAdlerA specAdlerB
  have h0 : (1, 0) = ((1 % 65521 : Nat), (0 % 65521 : Nat)) := by norm_num
  rw [h0, adler_foldl]
  simp [Nat.mul_one]

theorem zlibAdler32_lt (bytes : List Nat) : zlibAdler32 bytes < 2 ^ 32 := by
  rw [zlibAdler32_eq_spec]
  unfold specAdler specAdlerA specAdlerB
  have hA : (1 + bytes.sum) % 65521 < 65521 := Nat.mod_lt _ (by norm_num)
  have hB : (bytes.length + weightedSum bytes) % 65521 < 65521 :=
    Nat.mod_lt _ (by norm_num)
  omega

theorem ctypesU32_adler (bytes : List Nat) :
    ctypesU32 (zlibAdler32 bytes) = zlibAdler32 bytes :=
  Nat.mod_eq_of_lt (zlibAdler32_lt bytes)

/-! ### Decomposition of a line around the first marker occurrence -/

theorem marker_decomp {ln : Line} {s : Nat}
    (hfind : findSub ln START_TAG = some s) :
    ln = ln.take s ++ (START_TAG ++ ln.drop (s + START_TAG.length)) ∧
    (ln.take s).length = s ∧
    ln.length = s + START_TAG.length + (ln.drop (s + START_TAG.length)).length
    := by
  obtain ⟨b, hb⟩ := findSub_decomp hfind
  have hSTlen : START_TAG.length = 8 := rfl
  have hdl : (ln.drop s).length = ln.length - s := List.length_drop s ln
  rw [hb, List.length_append, hSTlen] at hdl
  have hlen : ln.length = s + 8 + b.length := by omega
  have htake_len : (ln.take s).length = s := by
    simp [List.length_take]
    omega
  have hsplit : ln = ln.take s ++ (START_TAG ++ b) := by
    conv_lhs => rw [← List.take_append_drop s ln]
    rw [hb]
  have hbdrop : ln.drop (s + START_TAG.length) = b := by
    conv_lhs => rw [hsplit]
    rw [show s + START_TAG.length = (ln.take s).length + START_TAG.length by
      rw [htake_len]]
    rw [drop_append_plus]
    exact List.drop_left START_TAG b
  refine ⟨?_, htake_len, ?_⟩
  · rw [hbdrop]
    exact hsplit
  · rw [hbdrop, hSTlen]
    omega

/-- The normal-state branch, fully characterized against the
specification's opener condition, the recorded opener fields, and the
emitted line. -/
theorem normalStep_facts (st : ScanState) (ln : Line)
    (h : st.in_diagram = false) :
    ((normalStep st ln).in_diagram = true ↔ specValidOpener ln) ∧
    ((normalStep st ln).in_diagram = true →
      (normalStep st ln).ditaa_pre = ln.take (markerPos ln) ∧
      (normalStep st ln).new_lines = st.new_lines ∧
      (normalStep st ln).ditaa_lines = st.ditaa_lines) ∧
    ((normalStep st ln).in_diagram = false →
      (normalStep st ln).new_lines = st.new_lines ++ [annotStripped ln] ∧
      (normalStep st ln).ditaa_lines = st.ditaa_lines) := by
  have hSTlen : START_TAG.length = 8 := rfl
  cases hfind : findSub ln START_TAG with
  | none =>
      have hns : normalStep st ln =
          ⟨st.new_lines ++ [ln], st.ditaa_pre, st.ditaa_lines,
           st.in_diagram, st.path_override⟩ := by
        simp [normalStep, hfind]
      have hannot : annotStripped ln = ln := by
        simp [annotStripped, hfind]
      rw [hns, hannot]
      refine ⟨⟨fun hin => ?_, fun hsp => ?_⟩, fun hin => ?_, fun _ => ⟨rfl, rfl⟩⟩
      · exact absurd hin (by simp [h])
      · obtain ⟨s, hs, -⟩ := hsp
        rw [hfind] at hs
        cases hs
      · exact absurd hin (by simp [h])
  | some s =>
      obtain ⟨hsplit, htake_len, hlen⟩ := marker_decomp hfind
      have hmp : markerPos ln = s := by simp [markerPos, hfind]
      set b := ln.drop (s + START_TAG.length) with hbdef
      have hpost : ln.drop (s + START_TAG.length + 1) = b.drop 1 := by
        rw [← List.drop_drop, hbdef]
      cases hA : (!(ln.drop (s + START_TAG.length + 1)).isEmpty &&
          startsWith (ln.drop (s + START_TAG.length + 1)) pathKey) with
      | true =>
          -- an inline `path=` annotation follows the marker
          have hA2 := hA
          rw [Bool.and_eq_true] at hA2
          obtain ⟨h1, hsw⟩ := hA2
          have hpostne : (ln.drop (s + START_TAG.length + 1)).isEmpty = false
              := by
            cases he : (ln.drop (s + START_TAG.length + 1)).isEmpty
            · rfl
            · rw [he] at h1
              exact absurd h1 (by decide)
          have hbne : b ≠ [] := by
            intro hnil
            rw [hpost, hnil] at hpostne
            simp at hpostne
          obtain ⟨c, b2, hb2⟩ := List.exists_cons_of_ne_nil hbne
          have hpost2 : ln.drop (s + START_TAG.length + 1) = b2 := by
            rw [hpost, hb2]
            rfl
          obtain ⟨v, hv⟩ := startsWith_iff.1 (hpost2 ▸ hsw)
          have hlnlen : ln.length = s + 8 + (1 + b2.length) := by
            rw [hb2] at hlen
            rw [hSTlen] at hlen
            simp [List.length_cons] at hlen
            omega
          have hcut : ln.length -
              (ln.drop (s + START_TAG.length + 1)).length - 1 = s + 8 := by
            rw [hpost2]
            omega
          have hln1 : ln.take (ln.length -
              (ln.drop (s + START_TAG.length + 1)).length - 1) =
              ln.take s ++ START_TAG := by
            rw [hcut]
            conv_lhs => rw [hsplit]
            rw [← List.append_assoc]
            exact List.take_left' (by simp [htake_len, hSTlen])
          have hends : endsWith (ln.take s ++ START_TAG) START_TAG = true :=
            endsWith_append _ _
          have hspec_of_strip : pyStrip (ln.take s) stripSet = [] →
              specValidOpener ln := by
            intro hstrip
            refine ⟨s, hfind, hstrip, Or.inr ⟨c, v, ?_⟩⟩
            conv_lhs => rw [hsplit]
            rw [hb2, hv]
            simp [List.append_assoc]
          have hstrip_of_spec : specValidOpener ln →
              pyStrip (ln.take s) stripSet = [] := by
            rintro ⟨s2, hs2, hstrip2, -⟩
            rw [hfind] at hs2
            cases hs2
            exact hstrip2
          have hns : normalStep st ln =
              if (pyStrip (ln.take s) stripSet).isEmpty then
                (⟨st.new_lines, ln.take s, st.ditaa_lines, true,
                  some ((ln.drop (s + START_TAG.length + 1)).drop 5)⟩ :
                  ScanState)
              else
                ⟨st.new_lines ++ [ln.take s ++ START_TAG], st.ditaa_pre,
                 st.ditaa_lines, st.in_diagram, some
                   ((ln.drop (s + START_TAG.length + 1)).drop 5)⟩ := by
            simp only [normalStep, hfind, hA, hln1, if_true, hends,
              Bool.true_and]
          have hannot : annotStripped ln = ln.take s ++ START_TAG := by
            simp only [annotStripped, hfind, hA, if_true]
            exact hln1
          by_cases hstrip : (pyStrip (ln.take s) stripSet).isEmpty = true
          · rw [if_pos hstrip] at hns
            rw [hns]
            refine ⟨⟨fun _ => ?_, fun _ => rfl⟩, fun _ => ⟨by rw [hmp], rfl, rfl⟩,
              fun hfalse => ?_⟩
            · exact hspec_of_strip (by simpa [List.isEmpty_iff] using hstrip)
            · exact absurd hfalse (by simp)
          · rw [if_neg hstrip] at hns
            rw [hns, hannot]
            refine ⟨⟨fun hin => ?_, fun hsp => ?_⟩, fun hin => ?_,
              fun _ => ⟨rfl, rfl⟩⟩
            · exact absurd hin (by simp [h])
            · exact absurd
                (by simpa [List.isEmpty_iff] using hstrip_of_spec hsp) hstrip
            · exact absurd hin (by simp [h])
      | false =>
          -- no annotation: the line is tested as-is
          have hns : normalStep st ln =
              if endsWith ln START_TAG && (pyStrip (ln.take s) stripSet).isEmpty
              then (⟨st.new_lines, ln.take s, st.ditaa_lines, true,
                st.path_override⟩ : ScanState)
              else ⟨st.new_lines ++ [ln], st.ditaa_pre, st.ditaa_lines,
                st.in_diagram, st.path_override⟩ := by
            simp only [normalStep, hfind, hA, if_false, Bool.false_eq_true]
          have hannot : annotStripped ln = ln := by
            simp only [annotStripped, hfind, hA, if_false]
            rfl
          have hnoannot : ¬ ∃ sep v,
              ln = ln.take s ++ START_TAG ++ sep :: (pathKey ++ v) := by
            rintro ⟨sep, v, hdec⟩
            have hdrop8 : ln.drop (s + START_TAG.length) =
                sep :: (pathKey ++ v) := by
              conv_lhs => rw [hdec]
              exact List.drop_left' (by simp [htake_len])
            have hpostval : ln.drop (s + START_TAG.length + 1) =
                pathKey ++ v := by
              rw [hpost, hbdef, hdrop8]
              rfl
            rw [hpostval] at hA
            have h1 : (pathKey ++ v).isEmpty = false := by
              simp [pathKey]
            have h2 : startsWith (pathKey ++ v) pathKey = true :=
              startsWith_iff.2 ⟨v, rfl⟩
            rw [h1, h2] at hA
            exact absurd hA (by decide)
          have hcode_iff : (endsWith ln START_TAG &&
              (pyStrip (ln.take s) stripSet).isEmpty) = true ↔
              specValidOpener ln := by
            constructor
            · intro hc
              rw [Bool.and_eq_true] at hc
              obtain ⟨he, hstrip⟩ := hc
              exact ⟨s, hfind, by simpa [List.isEmpty_iff] using hstrip,
                Or.inl (endsWith_iff.1 he)⟩
            · rintro ⟨s2, hs2, hstrip2, hor⟩
              rw [hfind] at hs2
              cases hs2
              rcases hor with ⟨a, ha⟩ | hdec
              · rw [Bool.and_eq_true]
                exact ⟨endsWith_iff.2 ⟨a, ha⟩,
                  by simpa [List.isEmpty_iff] using hstrip2⟩
              · exact absurd hdec hnoannot
          rw [hns]
          by_cases hc : (endsWith ln START_TAG &&
              (pyStrip (ln.take s) stripSet).isEmpty) = true
          · rw [if_pos hc]
            exact ⟨⟨fun _ => hcode_iff.1 hc, fun _ => rfl⟩,
              fun _ => ⟨by rw [hmp], rfl, rfl⟩,
              fun hfalse => absurd hfalse (by simp)⟩
          · rw [if_neg hc]
            rw [hannot]
            refine ⟨⟨fun hin => ?_, fun hsp => ?_⟩, fun hin => ?_,
              fun _ => ⟨rfl, rfl⟩⟩
            · exact absurd hin (by simp [h])
            · exact absurd (hcode_iff.2 hsp) hc
            · exact absurd hin (by simp [h])

theorem findSub_none_of_no_decomp {ln : Line}
    (h : ¬ ∃ a b, ln = a ++ START_TAG ++ b) :
    findSub ln START_TAG = none := by
  cases hf : findSub ln START_TAG with
  | none => rfl
  | some s =>
      obtain ⟨hsplit, -, -⟩ := marker_decomp hf
      refine absurd ⟨ln.take s, ln.drop (s + START_TAG.length), ?_⟩ h
      rw [List.append_assoc]
      exact hsplit

/-! ### The closing fence, rendered successfully or not -/

/-- The scanner step on a closing fence when the rendering sub-step
succeeds and a truthy `path=` override or extra-copy directory is
available: a single embed line is emitted and `path_override` is
cleared. -/
theorem diagramStep_close_success (cfg : Config) (env : OSEnv)
    (st : ScanState) (dir : Line)
    (hw : env.writeOk (blockCode st) = true)
    (hr : env.renderOk (blockCode st) = true)
    (hrel : env.relpath (generate_image_path cfg (blockCode st)) =
      generate_image_path cfg (blockCode st))
    (hdir : (if optTruthy st.path_override then st.path_override
      else cfg.extra_copy_path) = some dir) :
    diagramStep cfg env st (st.ditaa_pre ++ END_TAG) =
      Except.ok ⟨st.new_lines ++
        [st.ditaa_pre ++ embed (osPathJoin dir (imgBasename (blockCode st)))],
        st.ditaa_pre, [], false, none⟩ := by
  have hbeq : (st.ditaa_pre ++ END_TAG == st.ditaa_pre ++ END_TAG) = true :=
    beq_self_eq_true _
  have hgd : generate_diagram cfg env (blockCode st) =
      { result := Except.ok (some (generate_image_path cfg (blockCode st))),
        srcLeft := false, outLeft := false } := by
    simp only [generate_diagram, hw, hr, if_true, hrel]
  have htr : optTruthy (some (generate_image_path cfg (blockCode st))) =
      true := by
    have hne := generate_image_path_ne_nil cfg (blockCode st)
    simp [optTruthy, List.isEmpty_iff, hne]
  have hbase : basename (generate_image_path cfg (blockCode st)) =
      imgBasename (blockCode st) := basename_generate_image_path cfg _
  simp only [diagramStep, hbeq, if_true, hgd, htr]
  cases hov : optTruthy st.path_override with
  | true =>
      rw [hov] at hdir
      simp only [if_true] at hdir
      simp [hov, hdir, hbase]
  | false =>
      rw [hov] at hdir
      simp only [if_false, Bool.false_eq_true] at hdir
      simp [hov, hdir, hbase]

/-- The scanner step on a closing fence when the renderer fails (the
subprocess does not exit 0): the literal fallback is emitted and
`path_override` keeps its value. -/
theorem diagramStep_close_fail (cfg : Config) (env : OSEnv)
    (st : ScanState)
    (hw : env.writeOk (blockCode st) = true)
    (hr : env.renderOk (blockCode st) = false) :
    diagramStep cfg env st (st.ditaa_pre ++ END_TAG) =
      Except.ok ⟨st.new_lines ++ [[]] ++
        (strippedLines st).map (fun dln => st.ditaa_pre ++ indent4 ++ dln) ++
        [[]], st.ditaa_pre, [], false, st.path_override⟩ := by
  have hbeq : (st.ditaa_pre ++ END_TAG == st.ditaa_pre ++ END_TAG) = true :=
    beq_self_eq_true _
  have hgd : generate_diagram cfg env (blockCode st) =
      { result := Except.ok none, srcLeft := false, outLeft := false } := by
    simp only [generate_diagram, hw, hr, if_true, if_false,
      Bool.false_eq_true]
  simp [diagramStep, hbeq, hgd, optTruthy]

/-- Full evaluation of the closing-fence step when the subprocess
succeeds: the result depends on the truthiness of the returned path, of
`path_override`, and on whether `extra_copy_path` is set (when it is
`None`, `os.path.join` raises). -/
theorem diagramStep_close_eval (cfg : Config) (env : OSEnv) (st : ScanState)
    (hw : env.writeOk (blockCode st) = true)
    (hr : env.renderOk (blockCode st) = true) :
    diagramStep cfg env st (st.ditaa_pre ++ END_TAG) =
      if (env.relpath (generate_image_path cfg (blockCode st))).isEmpty then
        Except.ok ⟨st.new_lines ++ [[]] ++
          (strippedLines st).map (fun dln => st.ditaa_pre ++ indent4 ++ dln)
          ++ [[]], st.ditaa_pre, [], false, st.path_override⟩
      else if optTruthy st.path_override then
        Except.ok ⟨st.new_lines ++ [st.ditaa_pre ++ embed (osPathJoin
          (st.path_override.getD []) (basename (env.relpath
          (generate_image_path cfg (blockCode st)))))], st.ditaa_pre, [],
          false, none⟩
      else
        match cfg.extra_copy_path with
        | none => Except.error ()
        | some ecp =>
          Except.ok ⟨st.new_lines ++ [st.ditaa_pre ++ embed (osPathJoin ecp
            (basename (env.relpath (generate_image_path cfg
            (blockCode st)))))], st.ditaa_pre, [], false, none⟩ := by
  have hbeq : (st.ditaa_pre ++ END_TAG == st.ditaa_pre ++ END_TAG) = true :=
    beq_self_eq_true _
  have hgd : generate_diagram cfg env (blockCode st) =
      { result := Except.ok (some (env.relpath
          (generate_image_path cfg (blockCode st)))),
        srcLeft := false, outLeft := false } := by
    simp only [generate_diagram, hw, hr, if_true]
  simp only [diagramStep, hbeq, if_true, hgd, optTruthy]
  cases he : (env.relpath (generate_image_path cfg (blockCode st))).isEmpty
    <;> simp [he]

/-- A non-closing line in diagram state is appended to the body
accumulator only. -/
theorem diagramStep_accum (cfg : Config) (env : OSEnv) (st : ScanState)
    (ln : Line) (hne : ln ≠ st.ditaa_pre ++ END_TAG) :
    diagramStep cfg env st ln =
      Except.ok ⟨st.new_lines, st.ditaa_pre, st.ditaa_lines ++ [ln],
        st.in_diagram, st.path_override⟩ := by
  have hbeq : (ln == st.ditaa_pre ++ END_TAG) = false := by
    simp [beq_eq_false_iff_ne, hne]
  simp [diagramStep, hbeq]

/-! ### Loop-level lemmas -/

theorem runLoop_no_marker (cfg : Config) (env : OSEnv) :
    ∀ (lines : List Line) (st : ScanState), st.in_diagram = false →
    (∀ ln ∈ lines, findSub ln START_TAG = none) →
    runLoop cfg env st lines =
      Except.ok ⟨st.new_lines ++ lines, st.ditaa_pre, st.ditaa_lines,
        st.in_diagram, st.path_override⟩ := by
  intro lines
  induction lines with
  | nil =>
      intro st _ _
      simp [runLoop]
  | cons ln rest ih =>
      intro st hst hall
      have hfind : findSub ln START_TAG = none :=
        hall ln (List.mem_cons_self ln rest)
      have hstep : processLine cfg env st ln =
          Except.ok ⟨st.new_lines ++ [ln], st.ditaa_pre, st.ditaa_lines,
            st.in_diagram, st.path_override⟩ := by
        simp [processLine, hst, normalStep, hfind]
      rw [runLoop, hstep]
      show runLoop cfg env ⟨st.new_lines ++ [ln], st.ditaa_pre,
        st.ditaa_lines, st.in_diagram, st.path_override⟩ rest = _
      rw [ih _ (by simpa using hst)
        (fun l hl => hall l (List.mem_cons_of_mem ln hl))]
      simp

theorem runLoop_in_diagram (cfg : Config) (env : OSEnv) :
    ∀ (body : List Line) (st : ScanState), st.in_diagram = true →
    (∀ l ∈ body, l ≠ st.ditaa_pre ++ END_TAG) →
    runLoop cfg env st body =
      Except.ok ⟨st.new_lines, st.ditaa_pre, st.ditaa_lines ++ body,
        true, st.path_override⟩ := by
  intro body
  induction body with
  | nil =>
      intro st hst _
      simp [runLoop, ← hst]
  | cons ln rest ih =>
      intro st hst hall
      have hne : ln ≠ st.ditaa_pre ++ END_TAG :=
        hall ln (List.mem_cons_self ln rest)
      have hstep : processLine cfg env st ln =
          Except.ok ⟨st.new_lines, st.ditaa_pre, st.ditaa_lines ++ [ln],
            st.in_diagram, st.path_override⟩ := by
        rw [processLine, if_pos hst]
        exact diagramStep_accum cfg env st ln hne
      rw [runLoop, hstep]
      show runLoop cfg env ⟨st.new_lines, st.ditaa_pre,
        st.ditaa_lines ++ [ln], st.in_diagram, st.path_override⟩ rest = _
      rw [ih ⟨st.new_lines, st.ditaa_pre, st.ditaa_lines ++ [ln],
          st.in_diagram, st.path_override⟩ (by simpa using hst)
        (fun l hl => hall l (List.mem_cons_of_mem ln hl))]
      simp [hst]

theorem runLoop_append (cfg : Config) (env : OSEnv) :
    ∀ (xs ys : List Line) (st : ScanState),
    runLoop cfg env st (xs ++ ys) =
      match runLoop cfg env st xs with
      | Except.error e => Except.error e
      | Except.ok st2 => runLoop cfg env st2 ys := by
  intro xs
  induction xs with
  | nil => intro ys st; simp [runLoop]
  | cons ln rest ih =>
      intro ys st
      rw [List.cons_append, runLoop, runLoop]
      cases processLine cfg env st ln with
      | error e => rfl
      | ok st2 => exact ih ys st2

theorem annotStripped_of_no_annot {ln : Line} (h : hasAnnot ln = false) :
    annotStripped ln = ln := by
  unfold hasAnnot at h
  unfold annotStripped
  cases hf : findSub ln START_TAG with
  | none => rfl
  | some s =>
      simp only [hf] at h ⊢
      simp [h]

/-! ## The claims -/

/-- C1: In the normal state a line makes the scanner enter the
in-diagram state if and only if it contains the marker, the marker
(after stripping a trailing `path=` annotation, if present) is the
final content of the line, and the text before the marker strips to
nothing over spaces, tabs and `>`; on an opener the text before the
marker is recorded verbatim and nothing is emitted, and every
non-opener line is emitted (one output line is appended for it). -/
theorem claim_C1 (cfg : Config) (env : OSEnv) (st : ScanState) (ln : Line)
    (h : st.in_diagram = false) :
    processLine cfg env st ln = Except.ok (normalStep st ln) ∧
    ((normalStep st ln).in_diagram = true ↔ specValidOpener ln) ∧
    ((normalStep st ln).in_diagram = true →
      (normalStep st ln).ditaa_pre = ln.take (markerPos ln) ∧
      (normalStep st ln).new_lines = st.new_lines) ∧
    ((normalStep st ln).in_diagram = false →
      (normalStep st ln).new_lines = st.new_lines ++ [annotStripped ln]) := by
  obtain ⟨h1, h2, h3⟩ := normalStep_facts st ln h
  exact ⟨by simp [processLine, h], h1,
    fun hin => ⟨(h2 hin).1, (h2 hin).2.1⟩, fun hin => (h3 hin).1⟩

/-- C1 witness: the block-quoted opener is recognized at a concrete
input. -/
theorem claim_C1_witness :
    ((normalStep initState "> ```ditaa".data).in_diagram = true ↔
      specValidOpener "> ```ditaa".data) :=
  (claim_C1 ⟨".".data, none⟩ ⟨fun _ => true, fun _ => true, id⟩ initState
    "> ```ditaa".data rfl).2.1

/-- C2 counterexample: with the default configuration
(`extra_copy_path = None`) and an always-succeeding renderer, the
minimal document does not produce an embed line — the transform raises
(`os.path.join(None, ...)`), so the claimed output line is never
emitted. -/
theorem claim_C2_cex :
    run ⟨".".data, none⟩ ⟨fun _ => true, fun _ => true, id⟩
      ["```ditaa".data, "A->B".data, "```".data] = Except.error () := rfl

/-- C2 (amended): when rendering succeeds and a truthy `path=` override
or a configured extra-copy directory supplies the embed directory, the
block is replaced by the single line `prefix ++ "![ref](ref)"`, with the
same reference in both positions, whose basename is the checksum-derived
`diagram-<hex>.png`; the minimal document with an always-succeeding
renderer and extra-copy directory `img` yields exactly that line. -/
theorem claim_C2 :
    (∀ (cfg : Config) (env : OSEnv) (st : ScanState) (dir : Line),
      st.in_diagram = true →
      env.writeOk (blockCode st) = true →
      env.renderOk (blockCode st) = true →
      env.relpath (generate_image_path cfg (blockCode st)) =
        generate_image_path cfg (blockCode st) →
      (if optTruthy st.path_override then st.path_override
        else cfg.extra_copy_path) = some dir →
      processLine cfg env st (st.ditaa_pre ++ END_TAG) =
        Except.ok ⟨st.new_lines ++ [st.ditaa_pre ++
          embed (osPathJoin dir (imgBasename (blockCode st)))],
          st.ditaa_pre, [], false, none⟩ ∧
      basename (osPathJoin dir (imgBasename (blockCode st))) =
        imgBasename (blockCode st)) ∧
    run ⟨".".data, some "img".data⟩ ⟨fun _ => true, fun _ => true, id⟩
      ["```ditaa".data, "A->B".data, "```".data] =
      Except.ok ["![img/diagram-24d00ef.png](img/diagram-24d00ef.png)".data]
    := by
  constructor
  · intro cfg env st dir hst hw hr hrel hdir
    constructor
    · rw [processLine, if_pos hst]
      exact diagramStep_close_success cfg env st dir hw hr hrel hdir
    · exact basename_join (imgBasename_no_slash _)
  · rfl

/-- C2 witness: the amended statement applied at a concrete block. -/
theorem claim_C2_witness :
    basename (osPathJoin "img".data (imgBasename (blockCode
      ⟨[], [], ["A->B".data], true, none⟩))) =
      imgBasename (blockCode ⟨[], [], ["A->B".data], true, none⟩) :=
  (claim_C2.1 ⟨".".data, some "img".data⟩ ⟨fun _ => true, fun _ => true, id⟩
    ⟨[], [], ["A->B".data], true, none⟩ "img".data rfl rfl rfl rfl rfl).2

/-- C3 counterexample: a rendering failure caused by an I/O error while
writing the block text to the renderer input file (the `src.write` of
source lines 70-71, before the `try`) does NOT produce the fallback
lines — the exception propagates out of `run` and nothing is emitted,
so the minimal document yields an error, not `["", "    A->B", ""]`. -/
theorem claim_C3_cex :
    run ⟨".".data, none⟩ ⟨fun _ => false, fun _ => false, id⟩
      ["```ditaa".data, "A->B".data, "```".data] = Except.error () ∧
    (Except.error () : Except Unit (List Line)) ≠
      Except.ok [[], "    A->B".data, []] :=
  ⟨rfl, fun h => Except.noConfusion h⟩

/-- C3 (amended): a block whose rendering fails with the sub-step
returning no result — renderer unavailable or non-zero exit, any
exception caught inside the guarded region, which requires the write of
the block text to the input temp file to have succeeded — is replaced
by a blank line, the prefix-stripped body lines re-indented as
`prefix ++ four spaces ++ line`, and a blank line; the minimal document
with a renderer failing by non-zero exit yields exactly
`["", "    A->B", ""]`.  A failure raised while writing the input file
instead aborts the transform with no fallback emitted (see the
counterexample and C9). -/
theorem claim_C3 :
    (∀ (cfg : Config) (env : OSEnv) (st : ScanState),
      st.in_diagram = true →
      env.writeOk (blockCode st) = true →
      env.renderOk (blockCode st) = false →
      processLine cfg env st (st.ditaa_pre ++ END_TAG) =
        Except.ok ⟨st.new_lines ++ [[]] ++
          (strippedLines st).map (fun dln => st.ditaa_pre ++ indent4 ++ dln)
          ++ [[]], st.ditaa_pre, [], false, st.path_override⟩) ∧
    run ⟨".".data, none⟩ ⟨fun _ => true, fun _ => false, id⟩
      ["```ditaa".data, "A->B".data, "```".data] =
      Except.ok [[], "    A->B".data, []] := by
  constructor
  · intro cfg env st hst hw hr
    rw [processLine, if_pos hst]
    exact diagramStep_close_fail cfg env st hw hr
  · rfl

/-- C3 witness: the failing-renderer fallback at a concrete block. -/
theorem claim_C3_witness :
    processLine ⟨".".data, none⟩ ⟨fun _ => true, fun _ => false, id⟩
      ⟨[], [], ["A->B".data], true, none⟩ END_TAG =
      Except.ok ⟨[[], "    A->B".data, []], [], [], false, none⟩ :=
  claim_C3.1 ⟨".".data, none⟩ ⟨fun _ => true, fun _ => false, id⟩
    ⟨[], [], ["A->B".data], true, none⟩ rfl rfl rfl

/-- C4: the generated image path is the configured image directory
joined with `diagram-<hex>.png`, where `<hex>` is the lowercase
hexadecimal form of the 32-bit Adler-32 checksum (stated in closed
form) of the UTF-8 encoded block text; and the computation is
deterministic. -/
theorem claim_C4 (cfg : Config) (T : Line) :
    generate_image_path cfg T =
      osPathJoin cfg.ditaa_image_dir
        ("diagram-".data ++ toHex32 (specAdler (utf8Encode T)) ++ ".png".data)
      ∧ generate_image_path cfg T = generate_image_path cfg T := by
  refine ⟨?_, rfl⟩
  unfold generate_image_path imgBasename
  rw [ctypesU32_adler, zlibAdler32_eq_spec]

/-- C5: evaluation at the failing input — with the default
configuration (`extra_copy_path = None`, no `path=` override) and a
successful render, the transform raises (`TypeError` from
`os.path.join(None, basename)` at source line 111) instead of running
to completion. -/
theorem claim_C5_eval :
    run ⟨".".data, none⟩ ⟨fun _ => true, fun _ => true, id⟩
      ["```ditaa".data, "x".data, "```".data] = Except.error () := rfl

/-- C6 counterexample: a line that contains the marker but is not a
valid opener (non-empty text before the marker) is emitted with its
`path=` annotation cut off, not byte-for-byte unchanged. -/
theorem claim_C6_cex :
    run ⟨".".data, none⟩ ⟨fun _ => true, fun _ => true, id⟩
      ["x ```ditaa path=foo".data] = Except.ok ["x ```ditaa".data] ∧
    "x ```ditaa".data ≠ "x ```ditaa path=foo".data :=
  ⟨rfl, by decide⟩

/-- C6 (amended): a marker-bearing line that is not a valid opener is
never treated as an opener and is emitted; it is emitted byte-for-byte
unchanged whenever no `path=` annotation follows the marker, while a
recognized annotation (with its separator character) is removed from
the emitted line. -/
theorem claim_C6 (cfg : Config) (env : OSEnv) (st : ScanState) (ln : Line)
    (h : st.in_diagram = false) (hno : ¬ specValidOpener ln) :
    processLine cfg env st ln = Except.ok (normalStep st ln) ∧
    (normalStep st ln).in_diagram = false ∧
    (normalStep st ln).new_lines = st.new_lines ++ [annotStripped ln] ∧
    (hasAnnot ln = false → annotStripped ln = ln) := by
  obtain ⟨h1, -, h3⟩ := normalStep_facts st ln h
  have hfalse : (normalStep st ln).in_diagram = false := by
    cases hin : (normalStep st ln).in_diagram
    · rfl
    · exact absurd (h1.1 hin) hno
  exact ⟨by simp [processLine, h], hfalse, (h3 hfalse).1,
    fun hA => annotStripped_of_no_annot hA⟩

/-- C6 witness: a concrete malformed fence is passed through
unchanged. -/
theorem claim_C6_witness :
    (normalStep initState "x ```ditaa".data).new_lines =
      initState.new_lines ++ [annotStripped "x ```ditaa".data] :=
  (claim_C6 ⟨".".data, none⟩ ⟨fun _ => true, fun _ => true, id⟩ initState
    "x ```ditaa".data rfl (by
      rintro ⟨s, hs, hstrip, -⟩
      have hs2 : findSub "x ```ditaa".data START_TAG = some 2 := rfl
      rw [hs2] at hs
      injection hs with hs3
      subst hs3
      exact absurd hstrip (by decide))).2.2.1

/-- C7 counterexample: after a completed block whose rendering failed,
the scanner is back in the normal state but `path_override` still
holds the annotation captured by the opener — it is not cleared. -/
theorem claim_C7_cex :
    runLoop ⟨".".data, none⟩ ⟨fun _ => true, fun _ => false, id⟩ initState
      ["```ditaa path=X".data, "A".data, "```".data] =
      Except.ok ⟨[[], "    A".data, []], [], [], false, some "X".data⟩ ∧
    some "X".data ≠ (none : Option Line) :=
  ⟨rfl, by decide⟩

/-- C7 (amended): after a completed block the scanner returns to the
normal state with an empty body accumulator; `path_override` is
cleared when rendering succeeded (and the embed line was emitted), but
retains its value when rendering failed, so a captured annotation can
influence a later block. -/
theorem claim_C7 (cfg : Config) (env : OSEnv) (st : ScanState)
    (hst : st.in_diagram = true)
    (hw : env.writeOk (blockCode st) = true) (st2 : ScanState)
    (h2 : processLine cfg env st (st.ditaa_pre ++ END_TAG) = Except.ok st2) :
    st2.in_diagram = false ∧ st2.ditaa_lines = [] ∧
    (env.renderOk (blockCode st) = true →
      env.relpath (generate_image_path cfg (blockCode st)) ≠ [] →
      st2.path_override = none) ∧
    (env.renderOk (blockCode st) = false →
      st2.path_override = st.path_override) := by
  rw [processLine, if_pos hst] at h2
  cases hr : env.renderOk (blockCode st) with
  | false =>
      rw [diagramStep_close_fail cfg env st hw hr] at h2
      injection h2 with h2e
      subst h2e
      exact ⟨rfl, rfl, fun htrue _ => absurd htrue (by decide),
        fun _ => rfl⟩
  | true =>
      rw [diagramStep_close_eval cfg env st hw hr] at h2
      by_cases hrel :
          (env.relpath (generate_image_path cfg (blockCode st))).isEmpty =
            true
      · rw [if_pos hrel] at h2
        injection h2 with h2e
        subst h2e
        refine ⟨rfl, rfl, fun _ hne => ?_, fun hfalse => ?_⟩
        · exact absurd (List.isEmpty_iff.1 hrel) hne
        · rfl
      · rw [if_neg hrel] at h2
        cases hov : optTruthy st.path_override with
        | true =>
            rw [hov, if_pos rfl] at h2
            injection h2 with h2e
            subst h2e
            exact ⟨rfl, rfl, fun _ _ => rfl,
              fun hfalse => absurd hfalse (by decide)⟩
        | false =>
            rw [hov] at h2
            simp only [Bool.false_eq_true, if_false] at h2
            cases hecp : cfg.extra_copy_path with
            | none =>
                rw [hecp] at h2
                cases h2
            | some ecp =>
                rw [hecp] at h2
                injection h2 with h2e
                subst h2e
                exact ⟨rfl, rfl, fun _ _ => rfl,
                  fun hfalse => absurd hfalse (by decide)⟩

/-- C7 witness: the failure branch of the amended statement at a
concrete block with a captured override. -/
theorem claim_C7_witness :
    (⟨[[], "    A".data, []], [], [], false, some "X".data⟩ :
      ScanState).path_override =
    (⟨[], [], ["A".data], true, some "X".data⟩ : ScanState).path_override :=
  (claim_C7 ⟨".".data, none⟩ ⟨fun _ => true, fun _ => false, id⟩
    ⟨[], [], ["A".data], true, some "X".data⟩ rfl rfl
    ⟨[[], "    A".data, []], [], [], false, some "X".data⟩ rfl).2.2.2 rfl

/-- C8: a document in which no line contains the opening marker is
returned unchanged. -/
theorem claim_C8 (cfg : Config) (env : OSEnv) (lines : List Line)
    (h : ∀ ln ∈ lines, ¬ ∃ a b, ln = a ++ START_TAG ++ b) :
    run cfg env lines = Except.ok lines := by
  have hnone : ∀ ln ∈ lines, findSub ln START_TAG = none :=
    fun ln hln => findSub_none_of_no_decomp (h ln hln)
  unfold run
  rw [runLoop_no_marker cfg env lines initState rfl hnone]
  simp [initState]

/-- C8 witness: a concrete marker-free document is returned as is. -/
theorem claim_C8_witness :
    run ⟨".".data, none⟩ ⟨fun _ => true, fun _ => true, id⟩
      ["hello".data, "world".data] =
      Except.ok ["hello".data, "world".data] :=
  claim_C8 ⟨".".data, none⟩ ⟨fun _ => true, fun _ => true, id⟩
    ["hello".data, "world".data] (by
      intro ln hln
      rintro ⟨a, b, hab⟩
      have hlen := congrArg List.length hab
      rw [List.length_append, List.length_append] at hlen
      rw [show START_TAG.length = 8 from rfl] at hlen
      rcases List.mem_cons.1 hln with rfl | hln2
      · rw [show ("hello".data).length = 5 from rfl] at hlen
        omega
      · rcases List.mem_cons.1 hln2 with rfl | hln3
        · rw [show ("world".data).length = 5 from rfl] at hlen
          omega
        · exact absurd hln3 (List.not_mem_nil _))

/-- C9 counterexample: when the write of the block text to the
renderer input file raises (it happens before the `try`/`finally`),
the exception escapes `generate_diagram` with both temporary files
still present — cleanup is not guaranteed on this exit path. -/
theorem claim_C9_cex :
    (generate_diagram ⟨".".data, none⟩ ⟨fun _ => false, fun _ => true, id⟩
      "A".data).result = Except.error () ∧
    (generate_diagram ⟨".".data, none⟩ ⟨fun _ => false, fun _ => true, id⟩
      "A".data).srcLeft = true ∧
    (generate_diagram ⟨".".data, none⟩ ⟨fun _ => false, fun _ => true, id⟩
      "A".data).outLeft = true :=
  ⟨rfl, rfl, rfl⟩

/-- C9 (amended): both temporary files are deleted on every exit path
that reaches the `try` statement — success, renderer failure, and any
exception raised inside the guarded section; an exception while
writing the renderer input file (before the `try`) propagates with
neither file deleted. -/
theorem claim_C9 (cfg : Config) (env : OSEnv) (t : Line)
    (h : env.writeOk t = true) :
    (generate_diagram cfg env t).srcLeft = false ∧
    (generate_diagram cfg env t).outLeft = false := by
  cases hr : env.renderOk t <;> simp [generate_diagram, h, hr]

/-- C9 witness: cleanup on a concrete successful invocation. -/
theorem claim_C9_witness :
    (generate_diagram ⟨".".data, none⟩ ⟨fun _ => true, fun _ => true, id⟩
      "A".data).srcLeft = false ∧
    (generate_diagram ⟨".".data, none⟩ ⟨fun _ => true, fun _ => true, id⟩
      "A".data).outLeft = false :=
  claim_C9 ⟨".".data, none⟩ ⟨fun _ => true, fun _ => true, id⟩ "A".data rfl

/-- C10: when the input ends while the scanner is still in the
in-diagram state, the body lines only accumulate (nothing of the block
reaches the output), and a document consisting of marker-free lines, a
valid opener, and a never-closed body comes back as exactly the
marker-free prelude: the opener and body are silently dropped. -/
theorem claim_C10 :
    (∀ (cfg : Config) (env : OSEnv) (st : ScanState) (body : List Line),
      st.in_diagram = true →
      (∀ l ∈ body, l ≠ st.ditaa_pre ++ END_TAG) →
      runLoop cfg env st body =
        Except.ok ⟨st.new_lines, st.ditaa_pre, st.ditaa_lines ++ body, true,
          st.path_override⟩) ∧
    (∀ (cfg : Config) (env : OSEnv) (pre1 : List Line) (op : Line)
      (body : List Line),
      (∀ ln ∈ pre1, findSub ln START_TAG = none) →
      specValidOpener op →
      (∀ l ∈ body, l ≠ op.take (markerPos op) ++ END_TAG) →
      run cfg env (pre1 ++ op :: body) = Except.ok pre1) := by
  constructor
  · intro cfg env st body hst hbody
    exact runLoop_in_diagram cfg env body st hst hbody
  · intro cfg env pre1 op body hpre hop hbody
    have h1 : runLoop cfg env initState pre1 =
        Except.ok ⟨[] ++ pre1, [], [], false, none⟩ :=
      runLoop_no_marker cfg env pre1 initState rfl hpre
    obtain ⟨hiff, hopened, -⟩ :=
      normalStep_facts ⟨[] ++ pre1, [], [], false, none⟩ op rfl
    have hin : (normalStep ⟨[] ++ pre1, [], [], false, none⟩ op).in_diagram =
        true := hiff.2 hop
    obtain ⟨hpre_eq, hnl⟩ := hopened hin
    have h2 : processLine cfg env ⟨[] ++ pre1, [], [], false, none⟩ op =
        Except.ok (normalStep ⟨[] ++ pre1, [], [], false, none⟩ op) := by
      simp [processLine]
    have h4 : runLoop cfg env
        (normalStep ⟨[] ++ pre1, [], [], false, none⟩ op) body =
        Except.ok ⟨(normalStep ⟨[] ++ pre1, [], [], false, none⟩ op).new_lines,
          (normalStep ⟨[] ++ pre1, [], [], false, none⟩ op).ditaa_pre,
          (normalStep ⟨[] ++ pre1, [], [], false, none⟩ op).ditaa_lines ++
            body, true,
          (normalStep ⟨[] ++ pre1, [], [], false, none⟩ op).path_override⟩ :=
      runLoop_in_diagram cfg env body _ hin (by
        intro l hl
        rw [hpre_eq]
        exact hbody l hl)
    have h3 : runLoop cfg env ⟨[] ++ pre1, [], [], false, none⟩
        (op :: body) = runLoop cfg env
          (normalStep ⟨[] ++ pre1, [], [], false, none⟩ op) body := by
      rw [runLoop, h2]
    have h5 : runLoop cfg env initState (pre1 ++ op :: body) =
        Except.ok ⟨(normalStep ⟨[] ++ pre1, [], [], false, none⟩
          op).new_lines,
          (normalStep ⟨[] ++ pre1, [], [], false, none⟩ op).ditaa_pre,
          (normalStep ⟨[] ++ pre1, [], [], false, none⟩ op).ditaa_lines ++
            body, true,
          (normalStep ⟨[] ++ pre1, [], [], false, none⟩ op).path_override⟩
        := by
      rw [runLoop_append, h1]
      exact h3.trans h4
    have h6 : (normalStep ⟨[] ++ pre1, [], [], false, none⟩ op).new_lines =
        pre1 := by
      rw [hnl.1]
      simp
    unfold run
    rw [h5]
    exact congrArg Except.ok h6

/-- C10 witness: a concrete unterminated block is dropped from the
output. -/
theorem claim_C10_witness :
    run ⟨".".data, none⟩ ⟨fun _ => true, fun _ => true, id⟩
      ["t".data, "```ditaa".data, "A->B".data] = Except.ok ["t".data] :=
  claim_C10.2 ⟨".".data, none⟩ ⟨fun _ => true, fun _ => true, id⟩
    ["t".data] "```ditaa".data ["A->B".data]
    (by
      intro ln hln
      rw [List.mem_singleton] at hln
      subst hln
      rfl)
    ⟨0, rfl, rfl, Or.inl ⟨[], rfl⟩⟩
    (by
      intro l hl
      rw [List.mem_singleton] at hl
      subst hl
      decide)

end MdxDitaa
